import Mathlib

/-!
Shallow embedding of the live synchronization engine of `async_rust_tui`
(`src/app.rs`): the debounced station-search controller, the background
journey-refresh loop, and the journey merge/selection engine with its
countdown timer.

Time is embedded explicitly: `Instant`s and elapsed `Duration`s become `Nat`
(milliseconds or seconds as the source uses them), and zoned timestamps
(`jiff::Zoned`) become `Int` epoch seconds, so that `now.until(&dep)` becomes
integer subtraction. Fallible remote calls become `Except String` values
passed in as parameters. The bundled `sncf` crate in this repository is a
stub, so the `Place` and `Journey` records are modelled from the spec's data
model section; every function below is translated from `src/app.rs`.
-/

namespace AsyncRustTui

/-- Modelled from the spec: `Place` — `{ id, name, kind: optional }`
(the `sncf` crate that declares it is stubbed out in this repository);
field names follow the uses in `src/app.rs`. -/
structure Place where
  id : String
  name : String
  embedded_type : Option String
deriving DecidableEq, Repr, Inhabited

/-- Modelled from the spec: `Journey` — departure/arrival timestamps
(embedded as epoch seconds), a display date string, duration in seconds and
transfer count (the `sncf` crate that declares it is stubbed out in this
repository); field names follow the uses in `src/app.rs` and its tests. -/
structure Journey where
  dep : Int
  arr : Int
  date_str : String
  duration_secs : Int
  nb_transfers : Int
deriving DecidableEq, Repr, Inhabited

/-- Rust `JourneyKey` from `src/app.rs`: the composite identity of a journey. -/
structure JourneyKey where
  dep : Int
  arr : Int
  duration_secs : Int
  nb_transfers : Int
deriving DecidableEq, Repr, Inhabited

/-- Rust `SavedPlace` from `src/app.rs`. -/
structure SavedPlace where
  id : String
  name : String
deriving DecidableEq, Repr

/-- Rust `AppConfig` from `src/app.rs`. -/
structure AppConfig where
  start : SavedPlace
  destination : SavedPlace
deriving DecidableEq, Repr

/-- Rust `Mode` from `src/app.rs`. -/
inductive Mode where
  | InputStart
  | InputDest
  | Timer
deriving DecidableEq, Repr

/-- Rust `InputState` from `src/app.rs`; `last_edit_at : Instant` is kept abstract
because the controller only ever reads `last_edit_at.elapsed()`, which is
passed explicitly (in milliseconds) to the functions below. -/
structure InputState where
  text : String
  cursor : Nat
  suggestions : List Place
  selected : Nat
  last_queried : String
  loading : Bool
  error : Option String
deriving DecidableEq, Repr

/-- Rust `TimerState` from `src/app.rs`: `start` is an `Instant` (ms tick),
`duration` a non-negative `Duration` in whole seconds. -/
structure TimerState where
  start : Nat
  duration : Nat
  notified : Bool
  zero_at : Option Nat
deriving DecidableEq, Repr

/-- Rust `App` from `src/app.rs`, restricted to its state fields: the `JoinHandle`
and the channel receiver are represented by their presence (`Bool`), since the
engine only ever tests `refresh_task.is_some()` and installs/keeps them. -/
structure App where
  mode : Mode
  input : InputState
  timer : TimerState
  api_key : String
  refresh_task : Bool
  data_receiver : Bool
  chosen_start : Option Place
  chosen_dest : Option Place
  config : Option AppConfig
  journeys : List Journey
  journeys_selected : Nat
  journeys_loading : Bool
deriving DecidableEq, Repr

/-- Constant `SUGGESTION_DEBOUNCE_MS` from `src/app.rs`. -/
def SUGGESTION_DEBOUNCE_MS : Nat := 350

/-- Constant `MIN_QUERY_LEN` from `src/app.rs` (Rust `String::len`, i.e. UTF-8 bytes). -/
def MIN_QUERY_LEN : Nat := 2

/-- The composite key of a journey, as built field by field in
`selected_journey_key`. -/
def journeyKeyOf (j : Journey) : JourneyKey :=
  ⟨j.dep, j.arr, j.duration_secs, j.nb_transfers⟩

/-- The matching predicate of `replace_journeys`
(`j.dep == key.dep && j.arr == key.arr && ...`). -/
def matchesKey (key : JourneyKey) (j : Journey) : Bool :=
  j.dep == key.dep && j.arr == key.arr &&
    j.duration_secs == key.duration_secs && j.nb_transfers == key.nb_transfers

/-- Rust's `Iterator::position`: index of the first element satisfying `p`. -/
def position (p : α → Bool) : List α → Option Nat
  | [] => none
  | x :: xs => if p x then some 0 else (position p xs).map (· + 1)

/-- Rust `App::selected_journey_key` from `src/app.rs`: `None` when no journey is
displayed, otherwise the composite key of the journey at the clamped
selection index. -/
def App.selected_journey_key (a : App) : Option JourneyKey :=
  if a.journeys.isEmpty then none
  else
    let sel := min a.journeys_selected (a.journeys.length - 1)
    some (journeyKeyOf (a.journeys.getD sel default))

/-- Rust `App::update_timer_from_selection` from `src/app.rs`. `instNow` embeds
`Instant::now()`, `now` embeds `Zoned::now()` (epoch seconds); `now.until(dep)`
in whole seconds becomes `dep - now`. -/
def App.update_timer_from_selection (a : App) (instNow : Nat) (now : Int) : App :=
  if a.journeys.isEmpty then a
  else
    let sel := min a.journeys_selected (a.journeys.length - 1)
    let dep := (a.journeys.getD sel default).dep
    let secs : Int := dep - now
    let secs := if secs < 0 then 0 else secs
    { a with timer := { start := instNow, duration := secs.toNat,
                        notified := false, zero_at := none } }

/-- Rust `App::replace_journeys` from `src/app.rs`. -/
def App.replace_journeys (a : App) (data : List Journey) (instNow : Nat) (now : Int) : App :=
  let selected_key := a.selected_journey_key
  let a := { a with journeys := data, journeys_loading := false }
  if a.journeys.isEmpty then { a with journeys_selected := 0 }
  else
    let a :=
      match selected_key with
      | some key =>
        match position (matchesKey key) a.journeys with
        | some idx => { a with journeys_selected := idx }
        | none =>
          let clamped := min a.journeys_selected (a.journeys.length - 1)
          { a with journeys_selected := clamped }
      | none => { a with journeys_selected := 0 }
    a.update_timer_from_selection instNow now

/-- Rust `App::remaining_time` from `src/app.rs` (`Duration`s as `Nat`). -/
def App.remaining_time (a : App) (elapsed : Nat) : Nat :=
  if elapsed ≥ a.timer.duration then 0 else a.timer.duration - elapsed

/-- The body of `maybe_fetch_suggestions` once the lookup has been started:
`self.input.loading = true` has been set; `query` is the text captured when
the call was issued; on `Ok` the suggestions are replaced, `selected` reset,
`error` cleared and `last_queried` set to `query`; on `Err` only `error` is
written; `loading` is cleared unconditionally at the end. -/
def completeFetch (s : InputState) (query : String)
    (res : Except String (List Place)) : InputState :=
  let s :=
    match res with
    | .ok list =>
      { s with suggestions := list, selected := 0, error := none,
               last_queried := query }
    | .error e => { s with error := some e }
  { s with loading := false }

/-- The `self.input.loading = true` write at the start of the lookup in
`maybe_fetch_suggestions`: the state visible while the call is in flight. -/
def beginFetch (s : InputState) : InputState :=
  { s with loading := true }

/-- One full lookup attempt of `maybe_fetch_suggestions`: set `loading`,
capture the query from the current text, await the result, apply it. -/
def fetchAttempt (s : InputState) (res : Except String (List Place)) : InputState :=
  completeFetch (beginFetch s) s.text res

/-- Rust `App::maybe_fetch_suggestions` from `src/app.rs`, on the input state:
`elapsed` is `last_edit_at.elapsed()` in milliseconds at this tick and `res`
the outcome `fetch_places` would return if called. Returns the new input
state and whether a remote call was issued. -/
def maybe_fetch_suggestions (s : InputState) (elapsed : Nat)
    (res : Except String (List Place)) : InputState × Bool :=
  if s.text.utf8ByteSize ≥ MIN_QUERY_LEN ∧ s.text ≠ s.last_queried ∧
      elapsed ≥ SUGGESTION_DEBOUNCE_MS then
    (fetchAttempt s res, true)
  else
    (s, false)

/-- Rust `App::start_refresh_task` from `src/app.rs`: early-return when there is no
configuration or a refresh task is already active; otherwise install the task
handle and the receiving end of the channel. -/
def App.start_refresh_task (a : App) : App :=
  if a.config.isNone || a.refresh_task then a
  else { a with refresh_task := true, data_receiver := true }

/-- Outcome of one iteration of the refresh-loop body in `start_refresh_task`:
either the loop sleeps `sleep_secs` and runs again, or it breaks out of the
loop (failed channel send), or the task panics (`fetch_journeys(..).unwrap()`
on an `Err`). -/
inductive RefreshStep where
  | continueLoop (sleep_secs : Nat)
  | terminated
  | panicked
deriving DecidableEq, Repr

/-- The loop body of the spawned refresh task in `start_refresh_task`:
`fetch_journeys(..).await.unwrap()` panics on a fetch error; otherwise the
batch is sent, a send error breaks the loop, and on success the task sleeps
30 seconds before the next iteration. -/
def refresh_iteration (fetch : Except String (List Journey)) (sendOk : Bool) :
    RefreshStep :=
  match fetch with
  | .error _ => .panicked
  | .ok _ => if sendOk then .continueLoop 30 else .terminated

/-- Running the refresh loop over a finite trace of per-iteration environment
outcomes (fetch result, send success): `none` means the loop is still running
after consuming the whole trace, `some r` how it ended. -/
def refresh_run : List (Except String (List Journey) × Bool) → Option RefreshStep
  | [] => none
  | (f, s) :: rest =>
    match refresh_iteration f s with
    | .continueLoop _ => refresh_run rest
    | .terminated => some .terminated
    | .panicked => some .panicked

/-- The clamped selection index `min(journeys_selected, len - 1)` that
`selected_journey_key` and `update_timer_from_selection` both read. -/
def clampedIndex (a : App) : Nat :=
  min a.journeys_selected (a.journeys.length - 1)

/-- The composite key of the journey displayed at the clamped selection
index (meaningful when the displayed list is non-empty). -/
def displayedKey (a : App) : JourneyKey :=
  journeyKeyOf (a.journeys.getD (clampedIndex a) default)

/-- The selection index chosen by the non-empty branch of `replace_journeys`:
first match of the captured composite key, else the clamped previous index,
else 0 when nothing was displayed before. -/
def nextSelected (a : App) (data : List Journey) : Nat :=
  match a.selected_journey_key with
  | some key =>
    match position (matchesKey key) data with
    | some idx => idx
    | none => min a.journeys_selected (data.length - 1)
  | none => 0

/-- Example journey (departure 08:00 of the repository's test, as epoch
seconds within the day). -/
def exJ1 : Journey := ⟨28800, 32400, "2026-01-03", 3600, 0⟩

/-- Example journey (departure 10:00). -/
def exJ2 : Journey := ⟨36000, 39600, "2026-01-03", 3600, 0⟩

/-- Example journey (departure 12:00). -/
def exJ3 : Journey := ⟨43200, 46800, "2026-01-03", 3600, 0⟩

/-- Example application state: three displayed journeys with the last one
selected, matching the scenario of the repository's test suite. -/
def exApp : App :=
  { mode := .Timer
    input := ⟨"", 0, [], 0, "", false, none⟩
    timer := ⟨0, 3600, false, none⟩
    api_key := "test"
    refresh_task := false
    data_receiver := false
    chosen_start := none
    chosen_dest := none
    config := none
    journeys := [exJ1, exJ2, exJ3]
    journeys_selected := 2
    journeys_loading := true }

/-- Example input state: a two-byte query that has not been served yet. -/
def exInput : InputState := ⟨"ab", 2, [], 0, "", false, none⟩

/-- Example place returned by the remote lookup. -/
def exPlace : Place := ⟨"stop_area:1", "Paris", some "stop_area"⟩

/-- Example configuration with an origin and a destination station. -/
def exConfig : AppConfig := ⟨⟨"stop_area:1", "Paris"⟩, ⟨"stop_area:2", "Lyon"⟩⟩

/-! ### Helper lemmas -/

theorem position_nil (p : α → Bool) : position p [] = none := rfl

theorem position_cons (p : α → Bool) (x : α) (xs : List α) :
    position p (x :: xs) =
      if p x then some 0 else (position p xs).map (· + 1) := rfl

theorem matchesKey_iff (key : JourneyKey) (j : Journey) :
    matchesKey key j = true ↔ journeyKeyOf j = key := by
  cases key
  simp [matchesKey, journeyKeyOf, and_assoc]

theorem position_eq_some_iff [Inhabited α] (p : α → Bool) (l : List α) (i : Nat) :
    position p l = some i ↔
      i < l.length ∧ p (l.getD i default) = true ∧
        ∀ j, j < i → p (l.getD j default) = false := by
  induction l generalizing i with
  | nil => simp [position]
  | cons x xs ih =>
    rw [position_cons]
    by_cases hx : p x
    · rw [if_pos hx]
      cases i with
      | zero =>
        refine iff_of_true rfl ?_
        exact ⟨Nat.succ_pos _, by simpa using hx,
          fun j hj => absurd hj (Nat.not_lt_zero j)⟩
      | succ k =>
        refine iff_of_false (by simp) ?_
        rintro ⟨-, -, hall⟩
        have h0 := hall 0 (Nat.succ_pos k)
        rw [List.getD_cons_zero] at h0
        exact absurd hx (by simp [h0])
    · rw [if_neg hx]
      cases i with
      | zero =>
        refine iff_of_false ?_ ?_
        · simp only [Option.map_eq_some']
          rintro ⟨j, -, hj⟩
          exact absurd hj (by omega)
        · rintro ⟨-, hx0, -⟩
          rw [List.getD_cons_zero] at hx0
          exact absurd hx (by simp [hx0])
      | succ k =>
        simp only [Option.map_eq_some', List.length_cons, List.getD_cons_succ]
        constructor
        · rintro ⟨j, hj, hjk⟩
          have hk : j = k := by omega
          rw [hk] at hj
          obtain ⟨h1, h2, h3⟩ := (ih k).mp hj
          refine ⟨by omega, h2, ?_⟩
          intro j hj'
          cases j with
          | zero => simpa [List.getD_cons_zero] using hx
          | succ m =>
            rw [List.getD_cons_succ]
            exact h3 m (by omega)
        · rintro ⟨h1, h2, h3⟩
          refine ⟨k, (ih k).mpr ⟨by omega, h2, ?_⟩, rfl⟩
          intro m hm
          have := h3 (m + 1) (by omega)
          rwa [List.getD_cons_succ] at this

theorem position_eq_none_iff (p : α → Bool) (l : List α) :
    position p l = none ↔ ∀ x ∈ l, p x = false := by
  induction l with
  | nil => simp [position]
  | cons x xs ih =>
    rw [position_cons]
    by_cases hx : p x
    · simp [hx]
    · simp [hx, Option.map_eq_none', ih]

theorem position_isSome_of_mem {p : α → Bool} {l : List α} {x : α}
    (hmem : x ∈ l) (hx : p x = true) : ∃ i, position p l = some i := by
  cases hpos : position p l with
  | none =>
    have := (position_eq_none_iff p l).mp hpos x hmem
    simp [hx] at this
  | some i => exact ⟨i, rfl⟩

theorem isEmpty_eq_false_of_ne_nil {l : List α} (h : l ≠ []) :
    l.isEmpty = false := by
  cases l with
  | nil => exact absurd rfl h
  | cons x xs => rfl

theorem selected_journey_key_eq_none_iff (a : App) :
    a.selected_journey_key = none ↔ a.journeys = [] := by
  unfold App.selected_journey_key
  by_cases h : a.journeys = []
  · simp [h]
  · simp [isEmpty_eq_false_of_ne_nil h, h]

theorem selected_journey_key_of_ne_nil {a : App} (h : a.journeys ≠ []) :
    a.selected_journey_key = some (displayedKey a) := by
  unfold App.selected_journey_key displayedKey clampedIndex
  simp [isEmpty_eq_false_of_ne_nil h]

theorem update_timer_of_eq_nil {a : App} (h : a.journeys = []) (instNow : Nat)
    (now : Int) : a.update_timer_from_selection instNow now = a := by
  unfold App.update_timer_from_selection
  simp [h]

theorem if_neg_toNat (x : Int) : (if x < 0 then 0 else x).toNat = x.toNat := by
  split <;> omega

theorem update_timer_of_ne_nil {a : App} (h : a.journeys ≠ []) (instNow : Nat)
    (now : Int) :
    a.update_timer_from_selection instNow now =
      { a with timer :=
          ⟨instNow,
            ((a.journeys.getD (min a.journeys_selected (a.journeys.length - 1))
                default).dep - now).toNat,
            false, none⟩ } := by
  unfold App.update_timer_from_selection
  rw [isEmpty_eq_false_of_ne_nil h]
  simp only [Bool.false_eq_true, if_false, if_neg_toNat]

theorem replace_journeys_nil (a : App) (instNow : Nat) (now : Int) :
    a.replace_journeys [] instNow now =
      { a with journeys := [], journeys_loading := false,
               journeys_selected := 0 } := rfl

theorem replace_journeys_of_ne_nil (a : App) {data : List Journey}
    (hd : data ≠ []) (instNow : Nat) (now : Int) :
    a.replace_journeys data instNow now =
      App.update_timer_from_selection
        { a with journeys := data, journeys_loading := false,
                 journeys_selected := nextSelected a data } instNow now := by
  unfold App.replace_journeys
  simp only [isEmpty_eq_false_of_ne_nil (show data ≠ [] from hd),
    Bool.false_eq_true, if_false]
  cases hk : a.selected_journey_key with
  | none => simp [nextSelected, hk]
  | some key =>
    cases hp : position (matchesKey key) data with
    | none => simp [nextSelected, hk, hp]
    | some idx => simp [nextSelected, hk, hp]

theorem nextSelected_lt (a : App) {data : List Journey} (hd : data ≠ []) :
    nextSelected a data < data.length := by
  have hlen : 0 < data.length := List.length_pos.mpr hd
  cases hk : a.selected_journey_key with
  | none =>
    simp only [nextSelected, hk]
    exact hlen
  | some key =>
    cases hp : position (matchesKey key) data with
    | none =>
      simp only [nextSelected, hk, hp]
      omega
    | some idx =>
      simp only [nextSelected, hk, hp]
      exact ((position_eq_some_iff (matchesKey key) data idx).mp hp).1

theorem replace_journeys_journeys_eq (a : App) (data : List Journey)
    (instNow : Nat) (now : Int) :
    (a.replace_journeys data instNow now).journeys = data := by
  by_cases hd : data = []
  · subst hd
    rw [replace_journeys_nil]
  · rw [replace_journeys_of_ne_nil a hd,
      update_timer_of_ne_nil (show _ ≠ ([] : List Journey) from hd)]

theorem replace_journeys_selected_of_ne_nil (a : App) {data : List Journey}
    (hd : data ≠ []) (instNow : Nat) (now : Int) :
    (a.replace_journeys data instNow now).journeys_selected =
      nextSelected a data := by
  rw [replace_journeys_of_ne_nil a hd,
    update_timer_of_ne_nil (show _ ≠ ([] : List Journey) from hd)]

theorem replace_journeys_timer_of_ne_nil (a : App) {data : List Journey}
    (hd : data ≠ []) (instNow : Nat) (now : Int) :
    (a.replace_journeys data instNow now).timer =
      ⟨instNow, ((data.getD (nextSelected a data) default).dep - now).toNat,
        false, none⟩ := by
  have hlt := nextSelected_lt a hd
  rw [replace_journeys_of_ne_nil a hd,
    update_timer_of_ne_nil (show _ ≠ ([] : List Journey) from hd)]
  dsimp only
  rw [Nat.min_eq_left (by omega)]

theorem replace_journeys_loading_eq (a : App) (data : List Journey)
    (instNow : Nat) (now : Int) :
    (a.replace_journeys data instNow now).journeys_loading = false := by
  by_cases hd : data = []
  · subst hd
    rw [replace_journeys_nil]
  · rw [replace_journeys_of_ne_nil a hd,
      update_timer_of_ne_nil (show _ ≠ ([] : List Journey) from hd)]

/-! ### Claims -/

/-- C7: `replace_journeys` installs the fetched batch verbatim as the
displayed journey list — after the call the displayed list equals the batch
element for element in the batch's original order; the engine performs no
re-sorting or reordering, even when the batch is unsorted by departure. -/
theorem replace_journeys_installs_batch_verbatim (a : App) (data : List Journey)
    (instNow : Nat) (now : Int) :
    (a.replace_journeys data instNow now).journeys = data :=
  replace_journeys_journeys_eq a data instNow now

/-- C5: for every timer state (durations are non-negative by type) and every
elapsed value, `remaining_time` is zero whenever `elapsed ≥ duration`, equals
`duration - elapsed` otherwise, never exceeds the duration and never wraps
past zero: remaining plus the capped elapsed time is exactly the duration. -/
theorem remaining_time_clamped (a : App) (elapsed : Nat) :
    (a.timer.duration ≤ elapsed → a.remaining_time elapsed = 0) ∧
    (elapsed < a.timer.duration →
      a.remaining_time elapsed = a.timer.duration - elapsed) ∧
    a.remaining_time elapsed ≤ a.timer.duration ∧
    a.remaining_time elapsed + min elapsed a.timer.duration =
      a.timer.duration := by
  unfold App.remaining_time
  refine ⟨fun h => ?_, fun h => ?_, ?_, ?_⟩ <;> split <;> omega

/-- Witness for C5 at the spec's scenario: duration 5 s, elapsed 10 s gives
remaining 0 s. -/
theorem remaining_time_clamped_witness :
    ({ exApp with timer := ⟨0, 5, false, none⟩ } : App).remaining_time 10 = 0 :=
  (remaining_time_clamped { exApp with timer := ⟨0, 5, false, none⟩ } 10).1
    (by decide)

/-- C8: `start_refresh_task` is a no-op when no configuration is present or a
refresh task is already active (the whole application state is unchanged);
otherwise it installs exactly the task handle and the receiver, leaving every
other field unchanged. -/
theorem start_refresh_task_idempotent (a : App) :
    (a.config = none → a.start_refresh_task = a) ∧
    (a.refresh_task = true → a.start_refresh_task = a) ∧
    (∀ c, a.config = some c → a.refresh_task = false →
      a.start_refresh_task =
        { a with refresh_task := true, data_receiver := true }) := by
  unfold App.start_refresh_task
  refine ⟨fun h => ?_, fun h => ?_, fun c hc hr => ?_⟩
  · simp [h]
  · simp [h]
  · simp [hc, hr]

/-- Witness for C8: with no configuration the call is a no-op; with a
configuration and no running task it installs the task and the receiver. -/
theorem start_refresh_task_idempotent_witness :
    exApp.start_refresh_task = exApp ∧
    ({ exApp with config := some exConfig } : App).start_refresh_task =
      { { exApp with config := some exConfig } with
          refresh_task := true, data_receiver := true } :=
  ⟨(start_refresh_task_idempotent exApp).1 rfl,
   (start_refresh_task_idempotent { exApp with config := some exConfig }).2.2
     exConfig rfl rfl⟩

/-- C3 counterexample: Rust `String::len` counts UTF-8 bytes, not characters;
the one-character text `"é"` is two bytes long, so — contrary to the claim
that no text shorter than two characters triggers a call — a remote call is
issued for it. -/
theorem maybe_fetch_one_char_counterexample :
    ("é" : String).length < MIN_QUERY_LEN ∧
    (maybe_fetch_suggestions ⟨"é", 1, [], 0, "", false, none⟩
        SUGGESTION_DEBOUNCE_MS (Except.ok [])).2 = true := by
  constructor
  · decide
  · decide

/-- C3 (amended): the controller issues a remote call iff the text's UTF-8
byte length is at least `MIN_QUERY_LEN` (2 bytes — so one two-byte character
qualifies), the text differs from `last_queried`, and at least
`SUGGESTION_DEBOUNCE_MS` elapsed since the last edit; any text of byte length
below the minimum never triggers a call, and when no call is issued the input
state (suggestions included) is unchanged. -/
theorem maybe_fetch_trigger_iff (s : InputState) (elapsed : Nat)
    (res : Except String (List Place)) :
    ((maybe_fetch_suggestions s elapsed res).2 = true ↔
      (MIN_QUERY_LEN ≤ s.text.utf8ByteSize ∧ s.text ≠ s.last_queried ∧
        SUGGESTION_DEBOUNCE_MS ≤ elapsed)) ∧
    (s.text.utf8ByteSize < MIN_QUERY_LEN →
      (maybe_fetch_suggestions s elapsed res).2 = false) ∧
    ((maybe_fetch_suggestions s elapsed res).2 = false →
      (maybe_fetch_suggestions s elapsed res).1 = s) := by
  unfold maybe_fetch_suggestions
  by_cases h : s.text.utf8ByteSize ≥ MIN_QUERY_LEN ∧ s.text ≠ s.last_queried ∧
      elapsed ≥ SUGGESTION_DEBOUNCE_MS
  · rw [if_pos h]
    exact ⟨⟨fun _ => h, fun _ => rfl⟩,
      fun hlt => absurd h.1 (by omega),
      fun hf => absurd hf (by simp)⟩
  · rw [if_neg h]
    exact ⟨⟨fun hf => absurd hf (by simp), fun hc => absurd hc h⟩,
      fun _ => rfl, fun _ => rfl⟩

/-- Witness for C3 (amended): a one-byte text issues no call and leaves the
state unchanged. -/
theorem maybe_fetch_trigger_iff_witness :
    (maybe_fetch_suggestions ⟨"a", 1, [], 0, "", false, none⟩ 400
        (Except.ok [])).2 = false :=
  (maybe_fetch_trigger_iff ⟨"a", 1, [], 0, "", false, none⟩ 400
      (Except.ok [])).2.1 (by decide)

/-- C4: a triggered lookup runs with `loading` set; on success the
suggestions are replaced, `selected` reset to 0, `error` cleared and
`last_queried` set to the query that was issued (even if the state's text at
completion differs); on failure only `error` is written — suggestions and
`last_queried` are untouched; `loading` is cleared at the end of the attempt
in both cases. -/
theorem fetch_result_application (s s2 : InputState) (q : String)
    (list : List Place) (e : String) (elapsed : Nat)
    (res : Except String (List Place)) :
    (beginFetch s).loading = true ∧
    ((maybe_fetch_suggestions s elapsed res).2 = true →
      (maybe_fetch_suggestions s elapsed res).1 = fetchAttempt s res) ∧
    fetchAttempt s (Except.ok list) =
      { s with suggestions := list, selected := 0, error := none,
               last_queried := s.text, loading := false } ∧
    (completeFetch s2 q (Except.ok list)).last_queried = q ∧
    (fetchAttempt s (Except.error e)).error = some e ∧
    (fetchAttempt s (Except.error e)).suggestions = s.suggestions ∧
    (fetchAttempt s (Except.error e)).last_queried = s.last_queried ∧
    (fetchAttempt s (Except.error e)).loading = false := by
  refine ⟨rfl, ?_, rfl, rfl, rfl, rfl, rfl, rfl⟩
  unfold maybe_fetch_suggestions
  split
  · intro _
    rfl
  · intro h
    simp at h

/-- Witness for C4: a qualifying tick applies the lookup attempt to the
input state. -/
theorem fetch_result_application_witness :
    (maybe_fetch_suggestions exInput 350 (Except.ok [exPlace])).1 =
      fetchAttempt exInput (Except.ok [exPlace]) :=
  (fetch_result_application exInput exInput "q" [exPlace] "err" 350
      (Except.ok [exPlace])).2.1 (by decide)

/-- C9 counterexample: a failed lookup leaves `last_queried` unchanged, so
the very next tick — with the same unedited text — issues a new remote call,
contrary to the claim that no call is issued until the next qualifying
edit. -/
theorem fetch_retry_counterexample :
    (maybe_fetch_suggestions exInput SUGGESTION_DEBOUNCE_MS
        (Except.error "network failure")).2 = true ∧
    (maybe_fetch_suggestions
        (maybe_fetch_suggestions exInput SUGGESTION_DEBOUNCE_MS
            (Except.error "network failure")).1
        (SUGGESTION_DEBOUNCE_MS + 50) (Except.error "network failure")).2 =
      true := by
  constructor
  · decide
  · decide

/-- C9 (amended): after a failed attempt the controller retries on every
subsequent tick with the same unedited text (the failure does not update
`last_queried`); only a successful attempt records the served query and stops
further calls for that text until it is edited. -/
theorem maybe_fetch_retry_after_failure (s : InputState)
    (elapsed elapsed2 : Nat) (e : String)
    (res2 : Except String (List Place)) (list : List Place) :
    ((maybe_fetch_suggestions s elapsed (Except.error e)).2 = true →
      elapsed ≤ elapsed2 →
      (maybe_fetch_suggestions
          (maybe_fetch_suggestions s elapsed (Except.error e)).1
          elapsed2 res2).2 = true) ∧
    ((maybe_fetch_suggestions s elapsed (Except.ok list)).2 = true →
      (maybe_fetch_suggestions
          (maybe_fetch_suggestions s elapsed (Except.ok list)).1
          elapsed2 res2).2 = false) := by
  constructor
  · intro h hle
    by_cases hcond : s.text.utf8ByteSize ≥ MIN_QUERY_LEN ∧
        s.text ≠ s.last_queried ∧ elapsed ≥ SUGGESTION_DEBOUNCE_MS
    · have hfst : (maybe_fetch_suggestions s elapsed (Except.error e)).1 =
          fetchAttempt s (Except.error e) := by
        unfold maybe_fetch_suggestions
        rw [if_pos hcond]
      rw [hfst]
      unfold maybe_fetch_suggestions
      rw [if_pos ?_]
      · exact ⟨hcond.1, hcond.2.1, le_trans hcond.2.2 hle⟩
    · unfold maybe_fetch_suggestions at h
      rw [if_neg hcond] at h
      simp at h
  · intro h
    by_cases hcond : s.text.utf8ByteSize ≥ MIN_QUERY_LEN ∧
        s.text ≠ s.last_queried ∧ elapsed ≥ SUGGESTION_DEBOUNCE_MS
    · have hfst : (maybe_fetch_suggestions s elapsed (Except.ok list)).1 =
          fetchAttempt s (Except.ok list) := by
        unfold maybe_fetch_suggestions
        rw [if_pos hcond]
      rw [hfst]
      unfold maybe_fetch_suggestions
      rw [if_neg ?_]
      · intro hcond2
        exact hcond2.2.1 rfl
    · unfold maybe_fetch_suggestions at h
      rw [if_neg hcond] at h
      simp at h

/-- Witness for C9 (amended): the concrete retry after a failed attempt. -/
theorem maybe_fetch_retry_after_failure_witness :
    (maybe_fetch_suggestions
        (maybe_fetch_suggestions exInput 350 (Except.error "boom")).1
        400 (Except.error "boom")).2 = true :=
  (maybe_fetch_retry_after_failure exInput 350 400 "boom"
      (Except.error "boom") []).1 (by decide) (by decide)

/-- C6 counterexample: an iteration whose fetch fails ends the refresh loop
(the task panics on `unwrap`), although no channel send failed — the loop
does not sleep and continue as the claim states. -/
theorem refresh_fetch_failure_counterexample :
    ¬ (refresh_run [(Except.error "network failure", true)] = none ∨
       refresh_run [(Except.error "network failure", true)] =
         some RefreshStep.terminated) := by
  decide

/-- C6 (amended): the refresh loop sleeps the fixed 30-second interval and
iterates again iff the fetch succeeded and the send succeeded; it breaks out
of the loop iff the send failed after a successful fetch; a failed fetch
panics the task, ending the loop without a sleep — so over any finite trace
the loop ends only by a send failure or by a fetch panic. -/
theorem refresh_loop_exit_modes (f : Except String (List Journey))
    (sendOk : Bool) (events : List (Except String (List Journey) × Bool)) :
    (refresh_iteration f sendOk = RefreshStep.continueLoop 30 ↔
      sendOk = true ∧ ∃ d, f = Except.ok d) ∧
    (refresh_iteration f sendOk = RefreshStep.terminated ↔
      sendOk = false ∧ ∃ d, f = Except.ok d) ∧
    (refresh_iteration f sendOk = RefreshStep.panicked ↔
      ∃ err, f = Except.error err) ∧
    (∀ r, refresh_run events = some r →
      r = RefreshStep.terminated ∨ r = RefreshStep.panicked) := by
  refine ⟨?_, ?_, ?_, ?_⟩
  · cases f <;> cases sendOk <;> simp [refresh_iteration]
  · cases f <;> cases sendOk <;> simp [refresh_iteration]
  · cases f <;> cases sendOk <;> simp [refresh_iteration]
  · intro r h
    induction events with
    | nil => simp [refresh_run] at h
    | cons ev rest ih =>
      obtain ⟨fe, se⟩ := ev
      unfold refresh_run at h
      cases hfe : refresh_iteration fe se with
      | continueLoop n =>
        rw [hfe] at h
        exact ih h
      | terminated =>
        rw [hfe] at h
        simp only [Option.some.injEq] at h
        left
        exact h.symm
      | panicked =>
        rw [hfe] at h
        simp only [Option.some.injEq] at h
        right
        exact h.symm

/-- Witness for C6 (amended): a trace ending in a send failure ends the loop
with the `terminated` outcome. -/
theorem refresh_loop_exit_modes_witness :
    RefreshStep.terminated = RefreshStep.terminated ∨
      RefreshStep.terminated = RefreshStep.panicked :=
  (refresh_loop_exit_modes (Except.ok []) false
      [(Except.ok [], true), (Except.ok [], false)]).2.2.2
    RefreshStep.terminated (by decide)

/-- C1: the selection after `replace_journeys` — 0 on an empty batch; 0 when
nothing was displayed before; the position of the first entry of the batch
whose composite key equals the key of the journey displayed at the clamped
selection, when one exists; the clamp `min(previous index, len - 1)` when
none matches; and under a permutation of the displayed journeys the selected
journey keeps its composite key regardless of its new position. -/
theorem replace_journeys_selection_correct (a : App) (data : List Journey)
    (instNow : Nat) (now : Int) :
    (data = [] → (a.replace_journeys data instNow now).journeys_selected = 0) ∧
    (a.journeys = [] →
      (a.replace_journeys data instNow now).journeys_selected = 0) ∧
    (a.journeys ≠ [] → ∀ idx, idx < data.length →
      journeyKeyOf (data.getD idx default) = displayedKey a →
      (∀ j, j < idx → journeyKeyOf (data.getD j default) ≠ displayedKey a) →
      (a.replace_journeys data instNow now).journeys_selected = idx) ∧
    (a.journeys ≠ [] → data ≠ [] →
      (∀ j ∈ data, journeyKeyOf j ≠ displayedKey a) →
      (a.replace_journeys data instNow now).journeys_selected =
        min a.journeys_selected (data.length - 1)) ∧
    (data.Perm a.journeys → a.journeys ≠ [] →
      journeyKeyOf
        ((a.replace_journeys data instNow now).journeys.getD
          ((a.replace_journeys data instNow now).journeys_selected) default) =
        displayedKey a) := by
  refine ⟨?_, ?_, ?_, ?_, ?_⟩
  · intro hd
    subst hd
    rw [replace_journeys_nil]
  · intro hj
    by_cases hd : data = []
    · subst hd
      rw [replace_journeys_nil]
    · rw [replace_journeys_selected_of_ne_nil a hd]
      have hk : a.selected_journey_key = none :=
        (selected_journey_key_eq_none_iff a).mpr hj
      simp [nextSelected, hk]
  · intro hj idx hlt hkey hprev
    have hd : data ≠ [] := by
      intro h
      rw [h] at hlt
      simp at hlt
    have hk := selected_journey_key_of_ne_nil hj
    have hmx : matchesKey (displayedKey a) (data.getD idx default) = true :=
      (matchesKey_iff (displayedKey a) (data.getD idx default)).mpr hkey
    have hall : ∀ j, j < idx →
        matchesKey (displayedKey a) (data.getD j default) = false := by
      intro j hjlt
      cases hmj : matchesKey (displayedKey a) (data.getD j default) with
      | true =>
        exact absurd ((matchesKey_iff _ _).mp hmj) (hprev j hjlt)
      | false => rfl
    have hpos : position (matchesKey (displayedKey a)) data = some idx :=
      (position_eq_some_iff _ data idx).mpr ⟨hlt, hmx, hall⟩
    rw [replace_journeys_selected_of_ne_nil a hd]
    simp [nextSelected, hk, hpos]
  · intro hj hd hnone
    have hk := selected_journey_key_of_ne_nil hj
    have hpos : position (matchesKey (displayedKey a)) data = none := by
      refine (position_eq_none_iff _ data).mpr ?_
      intro x hx
      cases hmj : matchesKey (displayedKey a) x with
      | true => exact absurd ((matchesKey_iff _ _).mp hmj) (hnone x hx)
      | false => rfl
    rw [replace_journeys_selected_of_ne_nil a hd]
    simp [nextSelected, hk, hpos]
  · intro hperm hj
    have hd : data ≠ [] := by
      intro h
      rw [h] at hperm
      exact hj hperm.symm.eq_nil
    have hlen : 0 < a.journeys.length := List.length_pos.mpr hj
    have hclt : clampedIndex a < a.journeys.length := by
      unfold clampedIndex
      omega
    have hmem : a.journeys.getD (clampedIndex a) default ∈ a.journeys := by
      rw [List.getD_eq_getElem _ _ hclt]
      exact List.getElem_mem hclt
    have hmem2 : a.journeys.getD (clampedIndex a) default ∈ data :=
      hperm.mem_iff.mpr hmem
    have hmx : matchesKey (displayedKey a)
        (a.journeys.getD (clampedIndex a) default) = true :=
      (matchesKey_iff _ _).mpr rfl
    obtain ⟨i, hpos⟩ := position_isSome_of_mem hmem2 hmx
    have hk := selected_journey_key_of_ne_nil hj
    rw [replace_journeys_journeys_eq a data instNow now,
      replace_journeys_selected_of_ne_nil a hd]
    have hsel : nextSelected a data = i := by
      simp [nextSelected, hk, hpos]
    rw [hsel]
    exact (matchesKey_iff _ _).mp
      ((position_eq_some_iff (matchesKey (displayedKey a)) data i).mp hpos).2.1

/-- Witness for C1: in the test scenario the third journey stays selected
after the batch is permuted, landing at position 0. -/
theorem replace_journeys_selection_correct_witness :
    (exApp.replace_journeys [exJ3, exJ1, exJ2] 5 100).journeys_selected = 0 :=
  (replace_journeys_selection_correct exApp [exJ3, exJ1, exJ2] 5 100).2.2.1
    (by decide) 0 (by decide) (by decide) (by decide)

/-- C2: after `replace_journeys` on a non-empty batch, the countdown duration
equals `max 0 (departure - now)` in whole seconds for the journey at the
resulting selection index, and `notified` and `zero_at` are reset; on an
empty batch the timer is left untouched. -/
theorem replace_journeys_timer_correct (a : App) (data : List Journey)
    (instNow : Nat) (now : Int) :
    (data ≠ [] →
      (((a.replace_journeys data instNow now).timer.duration : Int) =
          max 0 ((data.getD
              ((a.replace_journeys data instNow now).journeys_selected)
              default).dep - now) ∧
        (a.replace_journeys data instNow now).timer.notified = false ∧
        (a.replace_journeys data instNow now).timer.zero_at = none)) ∧
    (data = [] → (a.replace_journeys data instNow now).timer = a.timer) := by
  constructor
  · intro hd
    rw [replace_journeys_timer_of_ne_nil a hd,
      replace_journeys_selected_of_ne_nil a hd]
    refine ⟨?_, rfl, rfl⟩
    dsimp only
    rw [Int.toNat_eq_max, max_comm]
  · intro hd
    subst hd
    rw [replace_journeys_nil]

/-- Witness for C2 at the test scenario: the recomputed duration for the
selected journey. -/
theorem replace_journeys_timer_correct_witness :
    ((exApp.replace_journeys [exJ3, exJ1, exJ2] 5 100).timer.duration : Int) =
      max 0 (([exJ3, exJ1, exJ2].getD
          ((exApp.replace_journeys [exJ3, exJ1, exJ2] 5 100).journeys_selected)
          default).dep - 100) :=
  ((replace_journeys_timer_correct exApp [exJ3, exJ1, exJ2] 5 100).1
    (by decide)).1

/-- C10: the merge helpers never read out of bounds even with a stale
selection index — the clamped index is below the length whenever the list is
non-empty, `selected_journey_key` reads the journey at the clamped index and
is `none` exactly when the list is empty, `update_timer_from_selection` reads
the same clamped journey, the clamp hits `len - 1` for any stale index, and
on an empty list `update_timer_from_selection` changes nothing. -/
theorem selection_access_in_bounds (a : App) (instNow : Nat) (now : Int) :
    (a.selected_journey_key = none ↔ a.journeys = []) ∧
    (a.journeys ≠ [] →
      clampedIndex a < a.journeys.length ∧
      a.selected_journey_key = some (displayedKey a) ∧
      (a.update_timer_from_selection instNow now).timer.duration =
        ((a.journeys.getD (clampedIndex a) default).dep - now).toNat) ∧
    (a.journeys ≠ [] → a.journeys.length ≤ a.journeys_selected →
      clampedIndex a = a.journeys.length - 1) ∧
    (a.journeys = [] → a.update_timer_from_selection instNow now = a) := by
  refine ⟨selected_journey_key_eq_none_iff a, ?_, ?_,
    fun h => update_timer_of_eq_nil h instNow now⟩
  · intro hj
    have hlen : 0 < a.journeys.length := List.length_pos.mpr hj
    refine ⟨by unfold clampedIndex; omega,
      selected_journey_key_of_ne_nil hj, ?_⟩
    rw [update_timer_of_ne_nil hj]
    rfl
  · intro hj hle
    unfold clampedIndex
    omega

/-- Witness for C10: with a stale selection index (99 on a three-element
list) the key read is that of the journey at the clamped index. -/
theorem selection_access_in_bounds_witness :
    ({ exApp with journeys_selected := 99 } : App).selected_journey_key =
      some (displayedKey { exApp with journeys_selected := 99 }) :=
  ((selection_access_in_bounds { exApp with journeys_selected := 99 } 0 0).2.1
    (by decide)).2.1

end AsyncRustTui
